import Mathlib

/-!
Verification of the point-declutter pipeline of `main.go` (lifeline).

The core of the program is three passes over a slice of points inside
`main`:

* a same-year spacer (lines 114-150) that fans out points sharing a
  year using a fixed spacing of `0.2`,
* a density rescaler (lines 156-206) that stretches gaps by local
  density and renormalizes into the original first/last range,
* a monotonicity pass (lines 212-217) that pushes any non-increasing
  point to `previous + 0.1`.

Go `float64` arithmetic is modelled by `ℚ`; the float literals of the
source (`0.2`, `0.1`, `3.0`, `1.5`) appear as the exact rationals
`1/5`, `1/10`, `3`, `3/2`.  In-place slice mutation is modelled by a
fold that updates one index per step (`setStep`); passes whose writes
never feed later reads are related to pure index-maps by lemmas below.
-/

namespace Lifeline

/-- One CSV row, `Point` of main.go: year, value, label. -/
structure Point where
  year : ℚ
  value : ℚ
  label : String
deriving DecidableEq

/-- Count of points of the sequence whose year equals `y`: the inner
loop of main.go lines 119-123 (`sameYearCount`), which always scans the
original `points` slice. -/
def sameYearCount (pts : List Point) (y : ℚ) : Nat :=
  (pts.filter (fun p => decide (p.year = y))).length

/-- Zero-based rank of index `i` among the points whose year is `y`, in
sequence order: the `eventIndex` loop of main.go lines 127-136, which
counts year-`y` points at indices before `i` of the original slice. -/
def rankAmong (pts : List Point) (i : Nat) (y : ℚ) : Nat :=
  ((pts.take i).filter (fun p => decide (p.year = y))).length

/-- The fixed fan spacing, `spacing := 0.2` of main.go line 139. -/
def spacing : ℚ := 1/5

/-- Body of one iteration of the first pass (main.go lines 114-149) for
the point `p` stored at index `i`: counts and rank are taken over the
original `pts`, and the year written is
`currentYear - totalOffset + eventIndex * spacing`. -/
def spacePoint (pts : List Point) (i : Nat) (p : Point) : Point :=
  let currentYear := p.year
  let n := sameYearCount pts currentYear
  if 1 < n then
    let totalOffset := ((n : ℚ) - 1) * spacing / 2
    { p with year := currentYear - totalOffset + (rankAmong pts i currentYear : ℚ) * spacing }
  else p

/-- One step of an in-place loop over a slice: read index `i`, write
`f i` of it back at `i`.  Out-of-range indices leave the slice alone. -/
def setStep (f : Nat → α → α) (adj : List α) (i : Nat) : List α :=
  match adj.get? i with
  | some p => adj.set i (f i p)
  | none => adj

/-- The Same-Time Spacer (main.go lines 114-150): the in-place `for i`
loop over `adjustedPoints`, started from a copy of `points`.  Each
iteration reads `adjustedPoints[i].Year` (still the original value,
since iteration `i` is the only writer of index `i`) and rewrites index
`i` using counts over the original `points`. -/
def spacer (pts : List Point) : List Point :=
  (List.range pts.length).foldl (setStep (spacePoint pts)) pts

/-- Pure index-map with a running index, used to restate the in-place
loops whose iteration `i` depends only on the original slice. -/
def mapWithIndex (f : Nat → α → α) : Nat → List α → List α
  | _, [] => []
  | k, a :: t => f k a :: mapWithIndex f (k + 1) t

/-- The density window, `densityWindow := 3.0` of main.go line 157. -/
def densityWindow : ℚ := 3

/-- Local density of time coordinate `y` over the post-spacing slice:
the count of points within `densityWindow` of `y`, inclusive, including
the point itself (main.go lines 160-168). -/
def density (adj : List Point) (y : ℚ) : ℚ :=
  (((adj.filter (fun q => decide (|q.year - y| ≤ densityWindow))).length : Nat) : ℚ)

/-- Scale factor for the gap from `prev` to `cur`
(main.go lines 184-186): `1 + (avgDensity - 1) * 1.5` with
`avgDensity` the mean of the two endpoint densities. -/
def scaleFactor (adj : List Point) (prev cur : Point) : ℚ :=
  1 + ((density adj cur.year + density adj prev.year) / 2 - 1) * (3 / 2)

/-- Scaled distance from `prev` to `cur` (main.go line 188):
the actual year gap times the density scale factor. -/
def scaledGap (adj : List Point) (prev cur : Point) : ℚ :=
  (cur.year - prev.year) * scaleFactor adj prev cur

/-- The slice `scaledDistances[1..]` of main.go lines 177-190, one entry
per consecutive pair of the post-spacing slice. -/
def scaledGaps (adj : List Point) : List ℚ :=
  List.zipWith (scaledGap adj) adj adj.tail

/-- `totalScaledDistance` of main.go line 178/189. -/
def totalScaled (adj : List Point) : ℚ :=
  (scaledGaps adj).sum

/-- The Density Rescaler (main.go lines 171-206).  `minYear`/`maxYear`
are the first/last post-spacing years; index `0` is pinned to
`minYear`; index `i ≥ 1` becomes
`minYear + (cumulativeScaled_i / totalScaled) * totalRange` when
`totalScaled > 0`, and keeps its post-spacing year otherwise.  Each
write depends only on the immutable post-spacing slice, so the loop is
an index-map. -/
def rescale (adj : List Point) : List Point :=
  match adj with
  | [] => []
  | a :: rest =>
    let minYear := a.year
    let maxYear := ((a :: rest).getLast (List.cons_ne_nil a rest)).year
    let totalRange := maxYear - minYear
    mapWithIndex (fun i p =>
      if i = 0 then { p with year := minYear }
      else if 0 < totalScaled (a :: rest) then
        { p with year := minYear + (((scaledGaps (a :: rest)).take i).sum / totalScaled (a :: rest)) * totalRange }
      else { p with year := p.year }) 0 (a :: rest)

/-- Tail of the Monotonicity Enforcer (main.go lines 212-217), with
`prev` the already-corrected year of the previous index: a point at or
before `prev` is moved to `prev + 0.1`. -/
def enforceFrom (prev : ℚ) : List Point → List Point
  | [] => []
  | p :: ps =>
    if p.year ≤ prev then
      { p with year := prev + 1/10 } :: enforceFrom (prev + 1/10) ps
    else
      p :: enforceFrom p.year ps

/-- The Monotonicity Enforcer (main.go lines 212-217): the forward
`for i := 1` pass; index `0` is never touched. -/
def enforce : List Point → List Point
  | [] => []
  | p :: ps => p :: enforceFrom p.year ps

/-- The full core pipeline of `main`: Same-Time Spacer, then Density
Rescaler, then Monotonicity Enforcer. -/
def pipeline (pts : List Point) : List Point :=
  enforce (rescale (spacer pts))

/-! ### The in-place spacer loop as a pure index-map -/

lemma get_q_append_len (pre : List α) (a : α) (t : List α) :
    (pre ++ a :: t).get? pre.length = some a := by
  induction pre with
  | nil => rfl
  | cons b pre ih => simpa using ih

lemma set_append_len (pre : List α) (a b : α) (t : List α) :
    (pre ++ a :: t).set pre.length b = pre ++ b :: t := by
  induction pre with
  | nil => rfl
  | cons c pre ih => simp [ih]

lemma foldl_setStep (f : Nat → α → α) :
    ∀ (l pre : List α),
      (List.range' pre.length l.length).foldl (setStep f) (pre ++ l)
        = pre ++ mapWithIndex f pre.length l := by
  intro l
  induction l with
  | nil => intro pre; simp [mapWithIndex]
  | cons a t ih =>
    intro pre
    have h1 : setStep f (pre ++ a :: t) pre.length = pre ++ f pre.length a :: t := by
      unfold setStep
      rw [get_q_append_len]
      exact set_append_len pre a (f pre.length a) t
    have h2 := ih (pre ++ [f pre.length a])
    simp only [List.length_append, List.length_singleton, List.append_assoc,
      List.singleton_append] at h2
    simpa [List.range'_succ, mapWithIndex, h1] using h2

lemma spacer_eq_mapWithIndex (pts : List Point) :
    spacer pts = mapWithIndex (spacePoint pts) 0 pts := by
  have h := foldl_setStep (spacePoint pts) pts []
  simpa [spacer, List.range_eq_range'] using h

/-! ### Generic facts about the index-map -/

lemma mapWithIndex_length (f : Nat → α → α) :
    ∀ (k : Nat) (l : List α), (mapWithIndex f k l).length = l.length := by
  intro k l
  induction l generalizing k with
  | nil => rfl
  | cons a t ih => simp [mapWithIndex, ih]

lemma mapWithIndex_get? (f : Nat → α → α) :
    ∀ (l : List α) (k i : Nat),
      (mapWithIndex f k l).get? i = (l.get? i).map (fun a => f (k + i) a) := by
  intro l
  induction l with
  | nil => intro k i; simp [mapWithIndex]
  | cons a t ih =>
    intro k i
    cases i with
    | zero => simp [mapWithIndex]
    | succ j =>
      have hk : k + (j + 1) = (k + 1) + j := by omega
      simp only [mapWithIndex, List.get?_cons_succ, hk]
      exact ih (k + 1) j

lemma mapWithIndex_map_proj (g : α → β) (f : Nat → α → α)
    (h : ∀ i a, g (f i a) = g a) :
    ∀ (k : Nat) (l : List α), (mapWithIndex f k l).map g = l.map g := by
  intro k l
  induction l generalizing k with
  | nil => rfl
  | cons a t ih => simp [mapWithIndex, h, ih]

lemma mapWithIndex_id_of (f : Nat → α → α) :
    ∀ (l : List α) (k : Nat), (∀ i a, k ≤ i → f i a = a) → mapWithIndex f k l = l := by
  intro l
  induction l with
  | nil => intro k _; rfl
  | cons a t ih =>
    intro k h
    rw [mapWithIndex, h k a le_rfl,
      ih (k + 1) (fun i a hi => h i a (le_trans (Nat.le_succ k) hi))]

/-! ### Length and frame preservation of each stage -/

lemma spacer_length (pts : List Point) : (spacer pts).length = pts.length := by
  rw [spacer_eq_mapWithIndex]; exact mapWithIndex_length _ 0 pts

lemma rescale_length (adj : List Point) : (rescale adj).length = adj.length := by
  cases adj with
  | nil => rfl
  | cons a rest => simp [rescale, mapWithIndex_length]

lemma enforceFrom_length :
    ∀ (l : List Point) (prev : ℚ), (enforceFrom prev l).length = l.length := by
  intro l
  induction l with
  | nil => intro prev; rfl
  | cons p ps ih =>
    intro prev
    by_cases h : p.year ≤ prev <;> simp [enforceFrom, h, ih]

lemma enforce_length (l : List Point) : (enforce l).length = l.length := by
  cases l with
  | nil => rfl
  | cons p ps => simp [enforce, enforceFrom_length]

lemma spacer_map_proj (g : Point → β)
    (hg : ∀ (p : Point) (y : ℚ), g { p with year := y } = g p) (pts : List Point) :
    (spacer pts).map g = pts.map g := by
  rw [spacer_eq_mapWithIndex]
  refine mapWithIndex_map_proj g _ ?_ 0 pts
  intro i p
  simp only [spacePoint]
  split
  · exact hg p _
  · rfl

lemma rescale_map_proj (g : Point → β)
    (hg : ∀ (p : Point) (y : ℚ), g { p with year := y } = g p) (adj : List Point) :
    (rescale adj).map g = adj.map g := by
  cases adj with
  | nil => rfl
  | cons a rest =>
    simp only [rescale]
    refine mapWithIndex_map_proj g _ ?_ 0 (a :: rest)
    intro i p
    dsimp only
    split
    · exact hg p _
    · split
      · exact hg p _
      · exact hg p _

lemma enforceFrom_map_proj (g : Point → β)
    (hg : ∀ (p : Point) (y : ℚ), g { p with year := y } = g p) :
    ∀ (l : List Point) (prev : ℚ), (enforceFrom prev l).map g = l.map g := by
  intro l
  induction l with
  | nil => intro prev; rfl
  | cons p ps ih =>
    intro prev
    by_cases h : p.year ≤ prev <;> simp [enforceFrom, h, ih, hg]

lemma enforce_map_proj (g : Point → β)
    (hg : ∀ (p : Point) (y : ℚ), g { p with year := y } = g p) (l : List Point) :
    (enforce l).map g = l.map g := by
  cases l with
  | nil => rfl
  | cons p ps => simp [enforce, enforceFrom_map_proj g hg]

/-! ### The Monotonicity Enforcer: strictness, never moving back -/

lemma enforceFrom_chain (l : List Point) :
    ∀ prev : ℚ, List.Chain' (fun p q : Point => p.year < q.year) (enforceFrom prev l) ∧
      ∀ q ∈ (enforceFrom prev l).head?, prev < q.year := by
  induction l with
  | nil => intro prev; exact ⟨by simp [enforceFrom], by simp [enforceFrom]⟩
  | cons p ps ih =>
    intro prev
    by_cases h : p.year ≤ prev
    · obtain ⟨hc, hh⟩ := ih (prev + 1/10)
      rw [enforceFrom, if_pos h]
      refine ⟨List.chain'_cons'.mpr ⟨hh, hc⟩, ?_⟩
      intro q hq
      have hq2 : q = { p with year := prev + 1/10 } := by
        simpa using hq.symm
      rw [hq2]
      show prev < prev + 1/10
      linarith [show (0:ℚ) < 1/10 by norm_num]
    · obtain ⟨hc, hh⟩ := ih p.year
      rw [enforceFrom, if_neg h]
      refine ⟨List.chain'_cons'.mpr ⟨hh, hc⟩, ?_⟩
      intro q hq
      have hq2 : q = p := by simpa using hq.symm
      rw [hq2]
      exact lt_of_not_le h

lemma enforce_chain (l : List Point) :
    List.Chain' (fun p q : Point => p.year < q.year) (enforce l) := by
  cases l with
  | nil => simp [enforce]
  | cons p ps =>
    obtain ⟨hc, hh⟩ := enforceFrom_chain ps p.year
    exact List.chain'_cons'.mpr ⟨hh, hc⟩

lemma enforceFrom_ge (l : List Point) :
    ∀ prev : ℚ, List.Forall₂ (fun p q : Point => p.year ≤ q.year) l (enforceFrom prev l) := by
  induction l with
  | nil => intro prev; simp [enforceFrom]
  | cons p ps ih =>
    intro prev
    by_cases h : p.year ≤ prev
    · rw [enforceFrom, if_pos h]
      refine List.Forall₂.cons ?_ (ih _)
      show p.year ≤ prev + 1/10
      linarith [show (0:ℚ) < 1/10 by norm_num]
    · rw [enforceFrom, if_neg h]
      exact List.Forall₂.cons le_rfl (ih _)

lemma enforceFrom_id (l : List Point) :
    ∀ prev : ℚ, (∀ q ∈ l.head?, prev < q.year) →
      List.Chain' (fun p q : Point => p.year < q.year) l →
      enforceFrom prev l = l := by
  induction l with
  | nil => intro prev _ _; rfl
  | cons p ps ih =>
    intro prev hh hc
    have hp : prev < p.year := hh p rfl
    obtain ⟨hh2, hc2⟩ := List.chain'_cons'.mp hc
    rw [enforceFrom, if_neg (not_le.mpr hp), ih p.year hh2 hc2]

/-- C1: for every input sequence, after the Monotonicity Enforcer's
single forward pass the final output of the core pipeline has strictly
increasing times: adjacent output points satisfy
`time[i-1] < time[i]`. -/
theorem pipeline_strictly_increasing (pts : List Point) :
    List.Chain' (fun p q : Point => p.year < q.year) (pipeline pts) :=
  enforce_chain (rescale (spacer pts))

/-- C2: the full three-stage pipeline returns an index-aligned sequence
of the same length in which every value and label is unchanged; only
the time field is ever modified. -/
theorem pipeline_frame (pts : List Point) :
    (pipeline pts).map Point.value = pts.map Point.value ∧
    (pipeline pts).map Point.label = pts.map Point.label ∧
    (pipeline pts).length = pts.length := by
  refine ⟨?_, ?_, ?_⟩
  · rw [pipeline, enforce_map_proj Point.value (fun _ _ => rfl),
      rescale_map_proj Point.value (fun _ _ => rfl),
      spacer_map_proj Point.value (fun _ _ => rfl)]
  · rw [pipeline, enforce_map_proj Point.label (fun _ _ => rfl),
      rescale_map_proj Point.label (fun _ _ => rfl),
      spacer_map_proj Point.label (fun _ _ => rfl)]
  · rw [pipeline, enforce_length, rescale_length, spacer_length]

/-! ### The Same-Time Spacer: pointwise formula and symmetric fan -/

lemma spacePoint_year (pts : List Point) (i : Nat) (p : Point) :
    (spacePoint pts i p).year =
      if 1 < sameYearCount pts p.year then
        p.year - ((sameYearCount pts p.year : ℚ) - 1) * spacing / 2
          + (rankAmong pts i p.year : ℚ) * spacing
      else p.year := by
  simp only [spacePoint]
  split <;> rfl

lemma spacer_get (pts : List Point) (i : Nat) (hi : i < pts.length) :
    (spacer pts).get ⟨i, by rw [spacer_length]; exact hi⟩
      = spacePoint pts i (pts.get ⟨i, hi⟩) := by
  have h1 : (spacer pts).get? i = some (spacePoint pts i (pts.get ⟨i, hi⟩)) := by
    rw [spacer_eq_mapWithIndex, mapWithIndex_get? (spacePoint pts) pts 0 i,
      List.get?_eq_get hi]
    simp
  rw [List.get?_eq_get (by rw [spacer_length]; exact hi)] at h1
  exact Option.some.inj h1

/-- Fan position for rank `k` in a group of `n` same-year points
originally at year `y` (identity for singleton groups): the year the
spacer writes for that point. -/
def fanYear (y : ℚ) (n : Nat) (k : Nat) : ℚ :=
  if 1 < n then y - ((n : ℚ) - 1) * spacing / 2 + (k : ℚ) * spacing else y

/-- The output years of the spacer at exactly those positions whose
original year is `y`, in sequence order. -/
def groupSpacedYears (pts : List Point) (y : ℚ) : List ℚ :=
  (((spacer pts).zip pts).filter (fun pq => decide (pq.2.year = y))).map
    (fun pq => pq.1.year)

lemma sameYearCount_nil (y : ℚ) : sameYearCount [] y = 0 := rfl

lemma sameYearCount_append (l1 l2 : List Point) (y : ℚ) :
    sameYearCount (l1 ++ l2) y = sameYearCount l1 y + sameYearCount l2 y := by
  simp [sameYearCount, List.filter_append]

lemma sameYearCount_cons_of (p : Point) (l : List Point) (y : ℚ) (h : p.year = y) :
    sameYearCount (p :: l) y = sameYearCount l y + 1 := by
  simp [sameYearCount, List.filter_cons, h]

lemma sameYearCount_cons_of_ne (p : Point) (l : List Point) (y : ℚ) (h : ¬ p.year = y) :
    sameYearCount (p :: l) y = sameYearCount l y := by
  simp [sameYearCount, List.filter_cons, h]

lemma group_aux (pts : List Point) (y : ℚ) :
    ∀ (suf pre : List Point), pts = pre ++ suf →
      (((mapWithIndex (spacePoint pts) pre.length suf).zip suf).filter
          (fun pq => decide (pq.2.year = y))).map (fun pq => pq.1.year)
        = (List.range' (sameYearCount pre y) (sameYearCount suf y)).map
            (fanYear y (sameYearCount pts y)) := by
  intro suf
  induction suf with
  | nil =>
    intro pre h
    simp [mapWithIndex, sameYearCount_nil]
  | cons p rest ih =>
    intro pre h
    have hpre : pts.take pre.length = pre := by
      rw [h]; exact List.take_left pre (p :: rest)
    have htail := ih (pre ++ [p]) (by rw [h, List.append_assoc]; rfl)
    simp only [List.length_append, List.length_singleton] at htail
    by_cases hy : p.year = y
    · have hrank : rankAmong pts pre.length y = sameYearCount pre y := by
        rw [rankAmong, hpre]; rfl
      have hhead : (spacePoint pts pre.length p).year
          = fanYear y (sameYearCount pts y) (sameYearCount pre y) := by
        rw [spacePoint_year, hy, hrank, fanYear]
      have hd : decide (p.year = y) = true := by simp [hy]
      rw [sameYearCount_append pre [p] y, sameYearCount_cons_of p [] y hy,
        sameYearCount_nil, Nat.zero_add] at htail
      rw [mapWithIndex, List.zip_cons_cons, List.filter_cons, if_pos hd]
      rw [List.map_cons, hhead, sameYearCount_cons_of p rest y hy,
        List.range'_succ, List.map_cons]
      exact congrArg _ htail
    · have hd : decide (p.year = y) = false := by simp [hy]
      have hcnt : sameYearCount (pre ++ [p]) y = sameYearCount pre y := by
        rw [sameYearCount_append pre [p] y, sameYearCount_cons_of_ne p [] y hy,
          sameYearCount_nil, Nat.add_zero]
      rw [hcnt] at htail
      rw [mapWithIndex, List.zip_cons_cons, List.filter_cons, hd]
      rw [sameYearCount_cons_of_ne p rest y hy]
      simpa using htail

lemma groupSpacedYears_eq (pts : List Point) (y : ℚ) :
    groupSpacedYears pts y
      = (List.range (sameYearCount pts y)).map (fanYear y (sameYearCount pts y)) := by
  have h := group_aux pts y pts [] rfl
  simpa [groupSpacedYears, spacer_eq_mapWithIndex, sameYearCount_nil,
    List.range_eq_range'] using h

lemma sum_map_range_affine (s c : ℚ) :
    ∀ n : Nat, ((List.range n).map (fun k : Nat => (k : ℚ) * s - c)).sum
      = (n : ℚ) * ((n : ℚ) - 1) / 2 * s - (n : ℚ) * c := by
  intro n
  induction n with
  | zero => norm_num
  | succ m ih =>
    rw [List.range_succ, List.map_append, List.sum_append, ih]
    simp only [List.map_cons, List.map_nil, List.sum_cons, List.sum_nil]
    push_cast
    ring

/-- C3: for a point at index `i` sharing its time with `n > 1` points,
the spacer writes `time - (n-1)*0.2/2 + k*0.2` with `k` the zero-based
rank over the ORIGINAL sequence; singleton groups are untouched; the
year-`y` group has exactly `n` output years whose deviations from `y`
sum to zero and whose consecutive values differ by exactly `0.2`. -/
theorem spacer_symmetric_fan (pts : List Point) (y : ℚ)
    (hy : 1 < sameYearCount pts y) :
    (∀ i (hi : i < pts.length),
        (spacer pts).get ⟨i, by rw [spacer_length]; exact hi⟩
          = (if 1 < sameYearCount pts (pts.get ⟨i, hi⟩).year then
              { pts.get ⟨i, hi⟩ with year :=
                  (pts.get ⟨i, hi⟩).year
                    - ((sameYearCount pts (pts.get ⟨i, hi⟩).year : ℚ) - 1) * spacing / 2
                    + (rankAmong pts i (pts.get ⟨i, hi⟩).year : ℚ) * spacing }
            else pts.get ⟨i, hi⟩)) ∧
    (groupSpacedYears pts y).length = sameYearCount pts y ∧
    ((groupSpacedYears pts y).map (fun t => t - y)).sum = 0 ∧
    (∀ k (hk : k + 1 < (groupSpacedYears pts y).length),
        (groupSpacedYears pts y).get ⟨k + 1, hk⟩
          - (groupSpacedYears pts y).get ⟨k, Nat.lt_of_succ_lt hk⟩ = spacing) := by
  refine ⟨?_, ?_, ?_, ?_⟩
  · intro i hi
    rw [spacer_get pts i hi]
    rfl
  · rw [groupSpacedYears_eq]
    simp
  · rw [groupSpacedYears_eq, List.map_map]
    have hstep : ((List.range (sameYearCount pts y)).map
          ((fun t => t - y) ∘ fanYear y (sameYearCount pts y)))
        = (List.range (sameYearCount pts y)).map
            (fun k : Nat => (k : ℚ) * spacing - ((sameYearCount pts y : ℚ) - 1) * spacing / 2) := by
      refine List.map_congr_left ?_
      intro k _
      simp only [Function.comp_apply, fanYear, if_pos hy]
      ring
    rw [hstep, sum_map_range_affine]
    ring
  · intro k hk
    have hlen : (groupSpacedYears pts y).length = sameYearCount pts y := by
      rw [groupSpacedYears_eq]; simp
    rw [List.get_eq_getElem, List.get_eq_getElem]
    simp only [groupSpacedYears_eq, List.getElem_map, List.getElem_range]
    have h1 : 1 < sameYearCount pts y := hy
    simp only [fanYear, if_pos h1]
    push_cast
    ring

/-! ### The Density Rescaler: endpoint anchors and the zero-total guard -/

lemma mapWithIndex_getElem? (f : Nat → α → α) (l : List α) (k i : Nat) :
    (mapWithIndex f k l)[i]? = (l[i]?).map (fun a => f (k + i) a) := by
  rw [← List.get?_eq_getElem?, ← List.get?_eq_getElem?]
  exact mapWithIndex_get? f l k i

lemma rescale_head? (adj : List Point) :
    (rescale adj).head? = adj.head? := by
  cases adj with
  | nil => rfl
  | cons a rest => rfl

lemma scaledGaps_length (a : Point) (rest : List Point) :
    (scaledGaps (a :: rest)).length = (a :: rest).length - 1 := by
  simp [scaledGaps, List.length_zipWith]

lemma rescale_getLast?_year (adj : List Point) :
    (rescale adj).getLast?.map Point.year = adj.getLast?.map Point.year := by
  cases adj with
  | nil => rfl
  | cons a rest =>
    rw [List.getLast?_eq_getElem?, List.getLast?_eq_getElem?, rescale_length]
    have hlast : (a :: rest)[(a :: rest).length - 1]?
        = some ((a :: rest).getLast (List.cons_ne_nil a rest)) := by
      rw [← List.getLast?_eq_getElem?, List.getLast?_eq_getLast_of_ne_nil]
    simp only [rescale]
    rw [mapWithIndex_getElem?, hlast]
    simp only [Option.map_some', Nat.zero_add]
    congr 1
    by_cases hrest : rest = []
    · subst hrest
      rfl
    · have hn : (a :: rest).length - 1 ≠ 0 := by
        simp only [List.length_cons]
        have : rest.length ≠ 0 := fun hc => hrest (List.length_eq_zero.mp hc)
        omega
      rw [if_neg hn]
      by_cases h0 : 0 < totalScaled (a :: rest)
      · rw [if_pos h0]
        show a.year + ((scaledGaps (a :: rest)).take ((a :: rest).length - 1)).sum
            / totalScaled (a :: rest)
            * (((a :: rest).getLast (List.cons_ne_nil a rest)).year - a.year)
          = ((a :: rest).getLast (List.cons_ne_nil a rest)).year
        rw [List.take_of_length_le (le_of_eq (scaledGaps_length a rest))]
        have hsum : (scaledGaps (a :: rest)).sum = totalScaled (a :: rest) := rfl
        rw [hsum, div_self (ne_of_gt h0)]
        ring
      · rw [if_neg h0]

/-- C4 (amended): the Density Rescaler anchors the endpoints of the
sequence: the first output time equals the first post-spacing time and,
before the monotonicity pass runs, the last output time equals the last
post-spacing time.  (These are the first/last elements, which for
fanned inputs need not be the minimum/maximum post-spacing times.) -/
theorem rescale_endpoint_anchors (adj : List Point) :
    (rescale adj).head?.map Point.year = adj.head?.map Point.year ∧
    (rescale adj).getLast?.map Point.year = adj.getLast?.map Point.year := by
  constructor
  · rw [rescale_head?]
  · exact rescale_getLast?_year adj

lemma rescale_id_of_total_nonpos (adj : List Point) (h : ¬ 0 < totalScaled adj) :
    rescale adj = adj := by
  cases adj with
  | nil => rfl
  | cons a rest =>
    simp only [rescale, mapWithIndex]
    congr 1
    exact mapWithIndex_id_of _ rest 1
      (fun i p hi => by rw [if_neg (Nat.one_le_iff_ne_zero.mp hi), if_neg h])

/-- C5: the renormalizing division happens only under the guard
`totalScaledDistance > 0`; when the guard fails, the rescaler leaves
every point at its post-spacing value (index 0 is re-pinned to its own
year), so no division by a zero total is ever performed. -/
theorem rescale_zero_total_guard (adj : List Point) (h : ¬ 0 < totalScaled adj) :
    rescale adj = adj :=
  rescale_id_of_total_nonpos adj h

/-- C10: the Monotonicity Enforcer never moves a point earlier
(pointwise `out.year ≥ in.year`, with matching lengths), and an already
strictly increasing input is returned exactly unchanged. -/
theorem enforce_never_moves_earlier (l : List Point) :
    List.Forall₂ (fun p q : Point => p.year ≤ q.year) l (enforce l) ∧
      (List.Chain' (fun p q : Point => p.year < q.year) l → enforce l = l) := by
  constructor
  · cases l with
    | nil => simp [enforce]
    | cons p ps => exact List.Forall₂.cons le_rfl (enforceFrom_ge ps p.year)
  · intro hc
    cases l with
    | nil => rfl
    | cons p ps =>
      obtain ⟨hh, hc2⟩ := List.chain'_cons'.mp hc
      rw [enforce, enforceFrom_id ps p.year hh hc2]

/-! ### Concrete inputs -/

/-- The concrete scenario input of the spec: pre-sorted
`[(1990, 10, "A"), (1990, 20, "B"), (1995, 5, "C")]`. -/
def ptsScenario : List Point :=
  [⟨1990, 10, "A"⟩, ⟨1990, 20, "B"⟩, ⟨1995, 5, "C"⟩]

/-- A pre-sorted input whose post-spacing sequence does not start at its
minimum: years `0.95, 1, 1` fan out to `0.95, 0.9, 1.1`. -/
def ptsSkew : List Point :=
  [⟨19/20, 1, "a"⟩, ⟨1, 2, "b"⟩, ⟨1, 3, "c"⟩]

/-- Two coincident points: every gap is zero, so the rescaler's total
scaled distance is zero. -/
def ptsDup : List Point :=
  [⟨2000, 1, "x"⟩, ⟨2000, 2, "y"⟩]

/-- A strictly increasing two-point list. -/
def ptsAsc : List Point :=
  [⟨0, 0, "u"⟩, ⟨1, 0, "v"⟩]

/-- A control run with two coincident points at year 0 and one at 1. -/
def ptsCtrl : List Point := [⟨0, 0, "p"⟩, ⟨0, 0, "q"⟩, ⟨1, 0, "r"⟩]

/-- An extra point within the 3-unit window of year 0. -/
def extraPt : Point := ⟨5/2, 0, "s"⟩

/-- C6: on the concrete scenario the spacer produces years `1989.9`,
`1990.1`, `1995`; the rescaler moves only the middle point (to
`1989.9 + 34/121`) keeping both anchors; the result is strictly
increasing, so the monotonicity correction never fires and the final
pipeline output is exactly the rescaler output. -/
theorem concrete_scenario_pipeline :
    (spacer ptsScenario).map Point.year = [19899/10, 19901/10, 1995] ∧
    (rescale (spacer ptsScenario)).map Point.year = [19899/10, 2408119/1210, 1995] ∧
    pipeline ptsScenario = rescale (spacer ptsScenario) ∧
    List.Chain' (fun p q : Point => p.year < q.year) (pipeline ptsScenario) := by
  have h1 : spacer ptsScenario
      = [⟨19899/10, 10, "A"⟩, ⟨19901/10, 20, "B"⟩, ⟨1995, 5, "C"⟩] := by
    norm_num [spacer_eq_mapWithIndex, mapWithIndex, spacePoint, sameYearCount, rankAmong,
      spacing, ptsScenario, List.filter_cons]
  have h2 : rescale (spacer ptsScenario)
      = [⟨19899/10, 10, "A"⟩, ⟨2408119/1210, 20, "B"⟩, ⟨1995, 5, "C"⟩] := by
    rw [h1]
    norm_num [rescale, mapWithIndex, scaledGaps, totalScaled, scaledGap, scaleFactor,
      density, densityWindow, List.filter_cons, abs_le, List.zipWith, List.getLast]
  have h3 : pipeline ptsScenario = rescale (spacer ptsScenario) := by
    rw [pipeline, h2]
    norm_num [enforce, enforceFrom]
  refine ⟨by rw [h1]; norm_num, by rw [h2]; norm_num, h3, ?_⟩
  rw [h3, h2]
  refine List.Chain'.cons ?_ (List.Chain'.cons ?_ (List.chain'_singleton _))
  · show (19899 : ℚ)/10 < 2408119/1210
    norm_num
  · show (2408119 : ℚ)/1210 < 1995
    norm_num

/-- C8: a one-point input passes through the whole pipeline unchanged:
the spacer sees a singleton group and does nothing, the rescaler's gap
loops are empty and it re-pins the single point to its own year, and
the enforcer's loop body never runs. -/
theorem pipeline_single_point (p : Point) :
    spacer [p] = [p] ∧ rescale [p] = [p] ∧ enforce [p] = [p] ∧ pipeline [p] = [p] := by
  have hc : sameYearCount [p] p.year = 1 := by
    simp [sameYearCount, List.filter_cons]
  have hs : spacer [p] = [p] := by
    rw [spacer_eq_mapWithIndex]
    show [spacePoint [p] 0 p] = [p]
    simp [spacePoint, hc]
  have hr : rescale [p] = [p] := by
    refine rescale_id_of_total_nonpos [p] ?_
    simp [totalScaled, scaledGaps]
  have he : enforce [p] = [p] := rfl
  exact ⟨hs, hr, he, by rw [pipeline, hs, hr, he]⟩

/-- C4 (counterexample): on the valid pre-sorted input `ptsSkew` the
post-spacing years are `0.95, 0.9, 1.1` with minimum `0.9`, yet the
rescaler's first output time is `0.95`: the rescaler anchors the first
element, not the minimum of the post-spacing times. -/
theorem rescale_min_anchor_cex :
    (spacer ptsSkew).map Point.year = [19/20, 9/10, 11/10] ∧
    ((spacer ptsSkew).map Point.year).min? = some (9/10) ∧
    (rescale (spacer ptsSkew)).head?.map Point.year = some (19/20) ∧
    (9/10 : ℚ) < 19/20 := by
  have h1 : spacer ptsSkew = [⟨19/20, 1, "a"⟩, ⟨9/10, 2, "b"⟩, ⟨11/10, 3, "c"⟩] := by
    norm_num [spacer_eq_mapWithIndex, mapWithIndex, spacePoint, sameYearCount, rankAmong,
      spacing, ptsSkew, List.filter_cons]
  refine ⟨by rw [h1]; norm_num, ?_, ?_, by norm_num⟩
  · rw [h1]
    norm_num [List.min?, min_def]
  · rw [rescale_head?, h1]
    norm_num

/-- Witness for the zero-total guard: two coincident points give a zero
total scaled distance and the rescaler returns them unchanged. -/
theorem rescale_zero_total_guard_witness :
    ¬ 0 < totalScaled ptsDup ∧ rescale ptsDup = ptsDup := by
  have h : totalScaled ptsDup = 0 := by
    norm_num [totalScaled, scaledGaps, scaledGap, ptsDup, List.zipWith]
  exact ⟨by rw [h]; norm_num, rescale_zero_total_guard ptsDup (by rw [h]; norm_num)⟩

/-- Witness for the symmetric fan on the concrete scenario: year `1990`
has a group of two whose spaced deviations sum to zero, and the group
list length equals the same-year count. -/
theorem spacer_symmetric_fan_witness :
    1 < sameYearCount ptsScenario 1990 ∧
    ((groupSpacedYears ptsScenario 1990).map (fun t => t - 1990)).sum = 0 ∧
    (groupSpacedYears ptsScenario 1990).length = sameYearCount ptsScenario 1990 :=
  ⟨by decide, (spacer_symmetric_fan ptsScenario 1990 (by decide)).2.2.1,
    (spacer_symmetric_fan ptsScenario 1990 (by decide)).2.1⟩

/-- Witness: on a strictly increasing two-point list the enforcer is
the identity. -/
theorem enforce_never_moves_earlier_witness :
    List.Chain' (fun p q : Point => p.year < q.year) ptsAsc ∧ enforce ptsAsc = ptsAsc :=
  ⟨List.Chain'.cons (by norm_num) (List.chain'_singleton _),
    (enforce_never_moves_earlier ptsAsc).2
      (List.Chain'.cons (by norm_num) (List.chain'_singleton _))⟩

/-! ### Density sensitivity and lower bounds -/

lemma density_insert (pre suf : List Point) (q : Point) (y : ℚ)
    (hq : |q.year - y| ≤ densityWindow) :
    density (pre ++ q :: suf) y = density (pre ++ suf) y + 1 := by
  have hd : decide (|q.year - y| ≤ densityWindow) = true := by simp [hq]
  simp [density, List.filter_append, List.filter_cons, hd]
  ring

lemma density_insert_le (pre suf : List Point) (q : Point) (y : ℚ) :
    density (pre ++ suf) y ≤ density (pre ++ q :: suf) y := by
  have h : ((pre ++ suf).filter (fun r => decide (|r.year - y| ≤ densityWindow))).length
      ≤ ((pre ++ q :: suf).filter (fun r => decide (|r.year - y| ≤ densityWindow))).length := by
    simp only [List.filter_append, List.length_append, List.filter_cons]
    cases hb : decide (|q.year - y| ≤ densityWindow) <;> simp
  rw [density, density]
  exact_mod_cast h

/-- C7 (amended): adding an extra point within the inclusive ±3 window
of time `y` strictly increases the density at `y` (by exactly one);
and, with the two gap endpoints held fixed, it strictly increases the
scaled gap of any adjacent pair one of whose endpoints lies in the
window, provided the actual gap is positive — a zero actual gap yields
a zero scaled gap in both runs (see the counterexample). -/
theorem density_scaled_gap_sensitivity :
    (∀ (pre suf : List Point) (q : Point) (y : ℚ),
        |q.year - y| ≤ densityWindow →
        density (pre ++ suf) y < density (pre ++ q :: suf) y) ∧
    (∀ (pre suf : List Point) (q a b : Point),
        (|q.year - a.year| ≤ densityWindow ∨ |q.year - b.year| ≤ densityWindow) →
        a.year < b.year →
        scaledGap (pre ++ suf) a b < scaledGap (pre ++ q :: suf) a b) := by
  have hstrict : ∀ (pre suf : List Point) (q : Point) (y : ℚ),
      |q.year - y| ≤ densityWindow →
      density (pre ++ suf) y < density (pre ++ q :: suf) y := by
    intro pre suf q y hq
    have := density_insert pre suf q y hq
    linarith
  refine ⟨hstrict, ?_⟩
  intro pre suf q a b hq hab
  have hma := density_insert_le pre suf q a.year
  have hmb := density_insert_le pre suf q b.year
  have hsum : density (pre ++ suf) a.year + density (pre ++ suf) b.year
      < density (pre ++ q :: suf) a.year + density (pre ++ q :: suf) b.year := by
    cases hq with
    | inl h => have := hstrict pre suf q a.year h; linarith
    | inr h => have := hstrict pre suf q b.year h; linarith
  have hsf : scaleFactor (pre ++ suf) a b < scaleFactor (pre ++ q :: suf) a b := by
    simp only [scaleFactor]
    linarith
  have hgap : 0 < b.year - a.year := by linarith
  simpa only [scaledGap] using mul_lt_mul_of_pos_left hsf hgap

/-- C7 (counterexample): adding `extraPt` (within the window of year 0)
does strictly increase the density at year 0, but the scaled gap on the
left side of the point at year 0 — a zero actual gap between two
coincident points — is zero in both runs, not strictly larger. -/
theorem scaled_gap_sensitivity_cex :
    |extraPt.year - (0:ℚ)| ≤ densityWindow ∧
    density (ptsCtrl ++ extraPt :: []) 0 > density (ptsCtrl ++ []) 0 ∧
    scaledGap (ptsCtrl ++ []) ⟨0, 0, "p"⟩ ⟨0, 0, "q"⟩ = 0 ∧
    scaledGap (ptsCtrl ++ extraPt :: []) ⟨0, 0, "p"⟩ ⟨0, 0, "q"⟩ = 0 ∧
    ¬ (scaledGap (ptsCtrl ++ []) ⟨0, 0, "p"⟩ ⟨0, 0, "q"⟩
        < scaledGap (ptsCtrl ++ extraPt :: []) ⟨0, 0, "p"⟩ ⟨0, 0, "q"⟩) := by
  refine ⟨?_, ?_, ?_, ?_, ?_⟩
  · norm_num [extraPt, densityWindow, abs_le]
  · norm_num [density, densityWindow, ptsCtrl, extraPt, List.filter_cons, abs_le]
  · norm_num [scaledGap]
  · norm_num [scaledGap]
  · norm_num [scaledGap]

/-- Witness for the amended density sensitivity: concrete strict
density increase, and strict scaled-gap increase over a positive gap. -/
theorem density_scaled_gap_sensitivity_witness :
    |extraPt.year - (0:ℚ)| ≤ densityWindow ∧
    density (ptsCtrl ++ []) 0 < density (ptsCtrl ++ extraPt :: []) 0 ∧
    ((⟨0, 0, "q"⟩ : Point).year < (⟨1, 0, "r"⟩ : Point).year ∧
      scaledGap (ptsCtrl ++ []) ⟨0, 0, "q"⟩ ⟨1, 0, "r"⟩
        < scaledGap (ptsCtrl ++ extraPt :: []) ⟨0, 0, "q"⟩ ⟨1, 0, "r"⟩) :=
  ⟨by norm_num [extraPt, densityWindow, abs_le],
    density_scaled_gap_sensitivity.1 ptsCtrl [] extraPt 0
      (by norm_num [extraPt, densityWindow, abs_le]),
    by norm_num,
    density_scaled_gap_sensitivity.2 ptsCtrl [] extraPt ⟨0, 0, "q"⟩ ⟨1, 0, "r"⟩
      (Or.inl (by norm_num [extraPt, densityWindow, abs_le])) (by norm_num)⟩

/-- C9: every computed density is at least 1 (each point counts itself
inside its own window), hence every scale factor is at least 1, and
each scaled gap has the same sign as, and magnitude at least, the
corresponding actual gap. -/
theorem density_scale_invariants :
    (∀ (adj : List Point) (p : Point), p ∈ adj → 1 ≤ density adj p.year) ∧
    (∀ (adj : List Point) (a b : Point), a ∈ adj → b ∈ adj →
        1 ≤ scaleFactor adj a b ∧
        |b.year - a.year| ≤ |scaledGap adj a b| ∧
        (0 < b.year - a.year → 0 < scaledGap adj a b) ∧
        (b.year - a.year = 0 → scaledGap adj a b = 0) ∧
        (b.year - a.year < 0 → scaledGap adj a b < 0)) := by
  have hdens : ∀ (adj : List Point) (p : Point), p ∈ adj → 1 ≤ density adj p.year := by
    intro adj p hp
    have hmem : p ∈ adj.filter (fun q => decide (|q.year - p.year| ≤ densityWindow)) := by
      refine List.mem_filter.mpr ⟨hp, ?_⟩
      simp [densityWindow]
    have hlen : 1 ≤ (adj.filter (fun q => decide (|q.year - p.year| ≤ densityWindow))).length :=
      List.length_pos_of_mem hmem
    rw [density]
    exact_mod_cast hlen
  refine ⟨hdens, ?_⟩
  intro adj a b ha hb
  have hda := hdens adj a ha
  have hdb := hdens adj b hb
  have hsf : 1 ≤ scaleFactor adj a b := by
    simp only [scaleFactor]
    linarith
  have hsfpos : 0 < scaleFactor adj a b := lt_of_lt_of_le one_pos hsf
  refine ⟨hsf, ?_, ?_, ?_, ?_⟩
  · rw [scaledGap, abs_mul, abs_of_pos hsfpos]
    exact le_mul_of_one_le_right (abs_nonneg _) hsf
  · intro hg
    exact mul_pos hg hsfpos
  · intro hg
    rw [scaledGap, hg, zero_mul]
  · intro hg
    exact mul_neg_of_neg_of_pos hg hsfpos

/-- Witness for the density and scale-factor lower bounds on a concrete
two-point list. -/
theorem density_scale_invariants_witness :
    ((⟨0, 0, "u"⟩ : Point) ∈ ptsAsc) ∧
    1 ≤ density ptsAsc (⟨0, 0, "u"⟩ : Point).year ∧
    1 ≤ scaleFactor ptsAsc ⟨0, 0, "u"⟩ ⟨1, 0, "v"⟩ :=
  ⟨by simp [ptsAsc],
    density_scale_invariants.1 ptsAsc ⟨0, 0, "u"⟩ (by simp [ptsAsc]),
    (density_scale_invariants.2 ptsAsc ⟨0, 0, "u"⟩ ⟨1, 0, "v"⟩
      (by simp [ptsAsc]) (by simp [ptsAsc])).1⟩

end Lifeline
